import Mathlib

/-!
Verification of the dependency-checker module (`cli/dependency_checker.py`).

The Python module is shallowly embedded below:

* pure helpers (string cleaning, regex-like line matching) become Lean
  functions on `String` / `List Char`;
* JSON documents read from files or subprocess output become inductive
  data types mirroring exactly the fields the code accesses;
* fallible code (uncaught Python exceptions) becomes `Except PyErr`;
* the external world (file contents, subprocess results, HTTP responses)
  is passed in explicitly as data, so every function is executable.
-/

namespace DepChecker

/-- Python exception kinds that the embedded code can raise to its caller
or catch internally. -/
inductive PyErr where
  | attributeError
  | typeError
  | keyError
deriving DecidableEq

/-- ASCII approximation of Python `str.strip()` / regex whitespace:
space, tab, newline, vertical tab, form feed, carriage return. -/
def isPySpace (c : Char) : Bool :=
  c == ' ' || c == '\t' || c == '\n' || c == '\x0b' || c == '\x0c' || c == '\r'

/-- `str.strip()` on a character list: drop whitespace from both ends. -/
def pyStrip (l : List Char) : List Char :=
  ((l.dropWhile isPySpace).reverse.dropWhile isPySpace).reverse

/-- One vulnerability finding, the dictionaries
`{'package_type': ..., 'package': ..., 'description': ...}` built by the
checker. -/
structure Finding where
  package_type : String
  package : String
  description : String
deriving DecidableEq

/-- The tuple `(vuln['package_type'], vuln['package'], vuln['description'])`
used as the membership key of the `seen_vulnerabilities` set in
`scan_directory`. -/
def dedupKey (f : Finding) : String × String × String :=
  (f.package_type, f.package, f.description)

/-- One iteration of the deduplicating accumulation loops of
`scan_directory` (lines 31-35, 40-44, 53-57, 64-68): state is the pair
(`vulnerabilities` list, `seen_vulnerabilities` set); a finding whose key
is already seen is dropped, otherwise it is appended and its key recorded.
The Python set is modelled as a list used only through membership. -/
def scanStep (acc : List Finding × List (String × String × String))
    (v : Finding) : List Finding × List (String × String × String) :=
  if dedupKey v ∈ acc.2 then acc else (acc.1 ++ [v], dedupKey v :: acc.2)

/-- The dedup loop of `scan_directory` run over one stream of findings. -/
def scanDedup (vulns : List Finding) : List Finding :=
  (vulns.foldl scanStep ([], [])).1

/-- `scan_directory`'s merging of the outputs of its successive providers
(npm audit, python audit, NVD npm, NVD pip): the four `for` loops share
one `vulnerabilities` list and one `seen_vulnerabilities` set, i.e. the
dedup loop is threaded through the concatenation of the provider
outputs. -/
def scanDirectoryMerge (outs : List (List Finding)) : List Finding :=
  ((outs.foldl (fun acc l => l.foldl scanStep acc) ([], []))).1

/-- Modelled from the spec's words (§3 ScanResult), for the refinement
comparison: keep, in discovery order, the first finding of each dedup key
not already in `seen`. -/
def firstOccurrences (seen : List (String × String × String)) :
    List Finding → List Finding
  | [] => []
  | v :: rest =>
    if dedupKey v ∈ seen then firstOccurrences seen rest
    else v :: firstOccurrences (dedupKey v :: seen) rest

/-- The set of keys recorded after the dedup loop has consumed a list. -/
def keysAfter (seen : List (String × String × String)) :
    List Finding → List (String × String × String)
  | [] => seen
  | v :: rest =>
    if dedupKey v ∈ seen then keysAfter seen rest
    else keysAfter (dedupKey v :: seen) rest

lemma foldl_scanStep_eq (l : List Finding) :
    ∀ (res : List Finding) (seen : List (String × String × String)),
      l.foldl scanStep (res, seen) =
        (res ++ firstOccurrences seen l, keysAfter seen l) := by
  induction l with
  | nil => intro res seen; simp [firstOccurrences, keysAfter]
  | cons v rest ih =>
    intro res seen
    simp only [List.foldl_cons, scanStep, firstOccurrences, keysAfter]
    by_cases h : dedupKey v ∈ seen
    · simp [h, ih]
    · simp [h, ih, List.append_assoc]

lemma scanDedup_eq_firstOccurrences (vulns : List Finding) :
    scanDedup vulns = firstOccurrences [] vulns := by
  simp [scanDedup, foldl_scanStep_eq]

lemma scanDirectoryMerge_eq_join (outs : List (List Finding)) :
    scanDirectoryMerge outs = scanDedup outs.flatten := by
  suffices h : ∀ (init : List Finding × List (String × String × String)),
      outs.foldl (fun acc l => l.foldl scanStep acc) init =
        outs.flatten.foldl scanStep init by
    simp [scanDirectoryMerge, scanDedup, h]
  induction outs with
  | nil => intro init; simp
  | cons o rest ih => intro init; simp [List.foldl_append, ih]

lemma firstOccurrences_keys_nodup (l : List Finding) :
    ∀ seen, ((firstOccurrences seen l).map dedupKey).Nodup ∧
      ∀ k ∈ (firstOccurrences seen l).map dedupKey, k ∉ seen := by
  induction l with
  | nil => intro seen; simp [firstOccurrences]
  | cons v rest ih =>
    intro seen
    by_cases h : dedupKey v ∈ seen
    · simpa [firstOccurrences, h] using ih seen
    · have hrec := ih (dedupKey v :: seen)
      simp only [firstOccurrences]
      rw [if_neg h]
      constructor
      · rw [List.map_cons, List.nodup_cons]
        refine ⟨fun hmem => hrec.2 _ hmem (by simp), hrec.1⟩
      · intro k hk hks
        rw [List.map_cons, List.mem_cons] at hk
        rcases hk with hk | hk
        · exact h (hk ▸ hks)
        · exact hrec.2 _ hk (by simp [hks])

/-- Claim C1: for every scan, the merged result list keeps at most one
finding per `(ecosystem, packageName, description)` triple; of two findings
with an identical triple, from any providers, only the first is kept; the
result order is the order of first occurrence of each unique triple; and
two findings differing in any one field of the triple are both kept. -/
theorem claim_C1 :
    (∀ outs : List (List Finding),
      scanDirectoryMerge outs = firstOccurrences [] outs.flatten) ∧
    (∀ outs : List (List Finding),
      ((scanDirectoryMerge outs).map dedupKey).Nodup) ∧
    (∀ f1 f2 : Finding, dedupKey f1 = dedupKey f2 →
      scanDirectoryMerge [[f1], [f2]] = [f1]) ∧
    (∀ f1 f2 : Finding, dedupKey f1 ≠ dedupKey f2 →
      scanDirectoryMerge [[f1], [f2]] = [f1, f2]) := by
  have hmerge : ∀ outs : List (List Finding),
      scanDirectoryMerge outs = firstOccurrences [] outs.flatten := by
    intro outs
    rw [scanDirectoryMerge_eq_join, scanDedup_eq_firstOccurrences]
  refine ⟨hmerge, fun outs => ?_, fun f1 f2 h => ?_, fun f1 f2 h => ?_⟩
  · rw [hmerge]
    exact (firstOccurrences_keys_nodup _ _).1
  · rw [hmerge]
    simp [firstOccurrences, h]
  · rw [hmerge]
    simp only [List.flatten, List.append_nil, List.singleton_append]
    simp [firstOccurrences, h, Ne.symm h]

/-- Witness for C1: concrete findings exercising each hypothesis. -/
theorem claim_C1_witness :
    scanDirectoryMerge
        [[⟨"npm", "lodash", "CVE-1: x"⟩], [⟨"npm", "lodash", "CVE-1: x"⟩]] =
      [⟨"npm", "lodash", "CVE-1: x"⟩] ∧
    scanDirectoryMerge
        [[⟨"npm", "lodash", "CVE-1: x"⟩], [⟨"pip", "lodash", "CVE-1: x"⟩]] =
      [⟨"npm", "lodash", "CVE-1: x"⟩, ⟨"pip", "lodash", "CVE-1: x"⟩] :=
  ⟨claim_C1.2.2.1 _ _ (by decide), claim_C1.2.2.2 _ _ (by decide)⟩

/-! ### `_parse_package_json` (lines 197-217) -/

/-- JSON values, as produced by `json.load`. -/
inductive JValue where
  | jnull
  | jbool (b : Bool)
  | jnum (n : Int)
  | jstr (s : String)
  | jarr (xs : List JValue)
  | jobj (fields : List (String × JValue))

/-- The characters removed by `re.sub(r'[\^~>=<]', '', version)`. -/
def isOpChar (c : Char) : Bool :=
  c == '^' || c == '~' || c == '>' || c == '=' || c == '<'

/-- Line 212: `re.sub(r'[\^~>=<]', '', version).strip()` — the regex class
matches single characters, so the substitution deletes every occurrence of
an operator character anywhere in the string; `.strip()` then trims
whitespace from both ends. -/
def cleanVersion (v : String) : String :=
  String.mk (pyStrip (v.data.filter (fun c => !isOpChar c)))

/-- `data.get(dep_type, {})` (line 209): `.get` exists only on `dict`, so a
non-object receiver raises `AttributeError` (not in the `except` tuple of
line 214); on an object, an absent key yields the default `{}`. -/
def pyDictGet (j : JValue) (k : String) : Except PyErr JValue :=
  match j with
  | .jobj fs => .ok (((fs.lookup k).getD (.jobj [])))
  | _ => .error .attributeError

/-- Lines 210-213: `for pkg_name, version in deps.items(): ...` —
`.items()` on a non-dict raises `AttributeError`; `re.sub` applied to a
non-string `version` raises `TypeError`; otherwise each entry becomes
`(pkg_name, cleanVersion version)` in iteration order. -/
def pkgsOfGroup (deps : JValue) : Except PyErr (List (String × String)) :=
  match deps with
  | .jobj fs =>
    fs.mapM (fun e =>
      match e.2 with
      | .jstr s => .ok (e.1, cleanVersion s)
      | _ => .error .typeError)
  | _ => .error .attributeError

/-- The body of the `try` block of `_parse_package_json` after a
successful `json.load`: the `for dep_type in [...]` loop processes
`dependencies` first, then `devDependencies`, appending in order; the
first raised exception aborts the loop. -/
def parseGroups (data : JValue) : Except PyErr (List (String × String)) :=
  match pyDictGet data "dependencies" with
  | .error e => .error e
  | .ok deps1 =>
    match pkgsOfGroup deps1 with
    | .error e => .error e
    | .ok l1 =>
      match pyDictGet data "devDependencies" with
      | .error e => .error e
      | .ok deps2 =>
        match pkgsOfGroup deps2 with
        | .error e => .error e
        | .ok l2 => .ok (l1 ++ l2)

/-- `_parse_package_json`. The file is `none` when missing
(`FileNotFoundError`, caught), `some none` when its bytes are not valid
JSON (`json.JSONDecodeError`, caught), and `some (some data)` otherwise.
The `except` clause (line 214) catches `JSONDecodeError`, `FileNotFoundError`
and `KeyError` — returning the packages accumulated so far (necessarily
`[]`) — while `AttributeError` and `TypeError` escape to the caller. -/
def parsePackageJson (file : Option (Option JValue)) :
    Except PyErr (List (String × String)) :=
  match file with
  | none => .ok []
  | some none => .ok []
  | some (some data) =>
    match parseGroups data with
    | .ok pkgs => .ok pkgs
    | .error .keyError => .ok []
    | .error e => .error e

/-- Claim C3, counterexample: the file content `[]` is valid JSON, yet
`_parse_package_json` raises `AttributeError` to its caller
(`data.get` on a list, line 209; `AttributeError` is not in the `except`
tuple of line 214), refuting "valid JSON of any shape … never raises". -/
theorem claim_C3_counterexample :
    parsePackageJson (some (some (.jarr []))) = .error .attributeError := by
  rfl

/-- Claim C3 as amended: the JSON manifest parser returns `[]` without
raising for a missing file, for content that is not valid JSON, and for a
valid JSON object lacking both dependency groups; but when the top-level
JSON value is not an object it raises an uncaught `AttributeError`. -/
theorem claim_C3_amended :
    parsePackageJson none = .ok [] ∧
    parsePackageJson (some none) = .ok [] ∧
    (∀ fs : List (String × JValue),
      fs.lookup "dependencies" = none → fs.lookup "devDependencies" = none →
      parsePackageJson (some (some (.jobj fs))) = .ok []) ∧
    (∀ j : JValue, (∀ fs, j ≠ .jobj fs) →
      parsePackageJson (some (some j)) = .error .attributeError) := by
  refine ⟨rfl, rfl, fun fs h1 h2 => ?_, fun j hj => ?_⟩
  · have e1 : pyDictGet (.jobj fs) "dependencies" = .ok (.jobj []) := by
      simp [pyDictGet, h1]
    have e2 : pyDictGet (.jobj fs) "devDependencies" = .ok (.jobj []) := by
      simp [pyDictGet, h2]
    simp only [parsePackageJson, parseGroups, e1, e2]
    rfl
  · cases j with
    | jobj fs => exact absurd rfl (hj fs)
    | jnull => rfl
    | jbool b => rfl
    | jnum n => rfl
    | jstr s => rfl
    | jarr xs => rfl

/-- Witness for C3: the amended theorem applied at a concrete empty
object and at the concrete non-object `null`. -/
theorem claim_C3_witness :
    parsePackageJson (some (some (.jobj []))) = .ok [] ∧
    parsePackageJson (some (some .jnull)) = .error .attributeError :=
  ⟨claim_C3_amended.2.2.1 [] rfl rfl,
   claim_C3_amended.2.2.2 .jnull (fun _ h => nomatch h)⟩

/-- Claim C5, counterexample: for the dependency entry
`"left-pad": ">=1.0 <2.0"` the parser yields version `"1.0 2.0"`: the
`<` occurring *after* the leading `>=` prefix is removed as well, so
characters after the leading operator prefix are not preserved (the claim
predicts `"1.0 <2.0"`). -/
theorem claim_C5_counterexample :
    parsePackageJson (some (some (.jobj [("dependencies",
        .jobj [("left-pad", .jstr ">=1.0 <2.0")])]))) =
      .ok [("left-pad", "1.0 2.0")] ∧
    ("1.0 2.0" : String) ≠ "1.0 <2.0" := by
  constructor
  · rfl
  · decide

lemma pyStrip_sublist (l : List Char) : (pyStrip l).Sublist l := by
  unfold pyStrip
  have h1 : ((l.dropWhile isPySpace).reverse.dropWhile isPySpace).Sublist
      (l.dropWhile isPySpace).reverse := List.dropWhile_sublist _
  have h2 := h1.reverse
  rw [List.reverse_reverse] at h2
  exact h2.trans (List.dropWhile_sublist _)

/-- Claim C5 as amended: the version cleaning of `_parse_package_json`
removes every occurrence of an operator character (caret, tilde, `>`,
`<`, `=`) anywhere in the version string — not only a leading prefix —
and trims surrounding whitespace; the result is a subsequence of the
input, and a version containing no operator characters and no surrounding
whitespace is returned unchanged. -/
theorem claim_C5_amended :
    (∀ v : String, ∀ c ∈ (cleanVersion v).data, isOpChar c = false) ∧
    (∀ v : String, (cleanVersion v).data.Sublist v.data) ∧
    (∀ v : String, v.data.all (fun c => !isOpChar c) = true →
      pyStrip v.data = v.data → cleanVersion v = v) := by
  refine ⟨fun v c hc => ?_, fun v => ?_, fun v hall hstrip => ?_⟩
  · have hmem : c ∈ v.data.filter (fun c => !isOpChar c) :=
      (pyStrip_sublist _).subset hc
    simpa using List.of_mem_filter hmem
  · exact (pyStrip_sublist _).trans (List.filter_sublist _)
  · have hfil : v.data.filter (fun c => !isOpChar c) = v.data :=
      List.filter_eq_self.mpr (by simpa [List.all_eq_true] using hall)
    show String.mk (pyStrip (v.data.filter (fun c => !isOpChar c))) = v
    rw [hfil, hstrip]

/-- Witness for C5: the amended theorem applied at concrete versions. -/
theorem claim_C5_witness :
    isOpChar '1' = false ∧
    (cleanVersion " ^1.2 ").data.Sublist (" ^1.2 " : String).data ∧
    cleanVersion "1.2.3" = "1.2.3" :=
  ⟨claim_C5_amended.1 " ^1.2 " '1' (by decide),
   claim_C5_amended.2.1 " ^1.2 ",
   claim_C5_amended.2.2 "1.2.3" (by decide) (by decide)⟩

/-! ### `_parse_requirements_txt` (lines 219-249) -/

/-- The regex class `[a-zA-Z0-9_-]` of line 236/243. -/
def isNameChar (c : Char) : Bool :=
  c.isAlpha || c.isDigit || c == '_' || c == '-'

/-- The regex class `[><=!]` of line 236. -/
def isCmpChar (c : Char) : Bool :=
  c == '>' || c == '<' || c == '=' || c == '!'

/-- The regex class `[0-9.]` of line 236. -/
def isVerChar (c : Char) : Bool :=
  c.isDigit || c == '.'

/-- `re.match(r'^([a-zA-Z0-9_-]+)\s*([><=!]+)\s*([0-9.]+)', line)`
(line 236), returning `(group(1), group(3))`. The four character classes
involved (`[a-zA-Z0-9_-]`, whitespace, `[><=!]`, `[0-9.]`) are pairwise
disjoint at each boundary the regex crosses, so the leftmost greedy match
never needs backtracking and is computed by successive `takeWhile`s; the
regex is unanchored at the right, so trailing text is ignored. -/
def matchNameOpVer (l : List Char) : Option (String × String) :=
  let name := l.takeWhile isNameChar
  if name.isEmpty then none else
  let r1 := (l.dropWhile isNameChar).dropWhile isPySpace
  let op := r1.takeWhile isCmpChar
  if op.isEmpty then none else
  let r2 := (r1.dropWhile isCmpChar).dropWhile isPySpace
  let ver := r2.takeWhile isVerChar
  if ver.isEmpty then none else some (String.mk name, String.mk ver)

/-- `re.match(r'^([a-zA-Z0-9_-]+)', line)` (line 243), returning
`group(1)`. -/
def matchBareName (l : List Char) : Option String :=
  let name := l.takeWhile isNameChar
  if name.isEmpty then none else some (String.mk name)

/-- The per-line processing of the `for line in lines` loop
(lines 229-245): strip, skip blank and `#`-starting lines, try the
name+operator+version pattern, otherwise the bare-name pattern with an
empty version, otherwise emit nothing. -/
def parseReqLine (line : String) : Option (String × String) :=
  let s := pyStrip line.data
  if s.isEmpty then none
  else if s.head? = some '#' then none
  else
    match matchNameOpVer s with
    | some (n, v) => some (n, v)
    | none => (matchBareName s).map (fun n => (n, ""))

/-- `_parse_requirements_txt`: `none` models a missing file
(`FileNotFoundError` caught, empty result); otherwise the file is its
list of lines and the emitted pairs are accumulated in line order. -/
def parseRequirementsTxt (file : Option (List String)) :
    List (String × String) :=
  match file with
  | none => []
  | some lines => lines.filterMap parseReqLine

/-- Claim C4, counterexample: the `-e` editable-install line `-e .` is
not silently skipped: `-` and `e` are both in `[a-zA-Z0-9_-]`, so the
bare-name pattern matches at line start and the parser emits
`("-e", "")`. -/
theorem claim_C4_counterexample :
    parseRequirementsTxt (some ["-e ."]) = [("-e", "")] ∧
    parseRequirementsTxt (some ["-e ."]) ≠ [] := by
  constructor
  · decide
  · decide

lemma matchNameOpVer_eq_some {l : List Char} {n v : String}
    (h : matchNameOpVer l = some (n, v)) :
    n ≠ "" ∧ n.data.all isNameChar = true ∧
    v ≠ "" ∧ v.data.all isVerChar = true := by
  unfold matchNameOpVer at h
  dsimp only at h
  split_ifs at h with h1 h2 h3
  rw [Option.some.injEq, Prod.mk.injEq] at h
  obtain ⟨hn, hv⟩ := h
  refine ⟨?_, ?_, ?_, ?_⟩
  · intro he
    rw [← hn] at he
    have hnil : l.takeWhile isNameChar = [] := congrArg String.data he
    simp [hnil] at h1
  · rw [← hn]
    exact List.all_eq_true.mpr (fun c hc => List.mem_takeWhile_imp hc)
  · intro he
    rw [← hv] at he
    have hnil : List.takeWhile isVerChar
        (List.dropWhile isPySpace (List.dropWhile isCmpChar
          (List.dropWhile isPySpace (List.dropWhile isNameChar l)))) =
        [] := congrArg String.data he
    simp [hnil] at h3
  · rw [← hv]
    exact List.all_eq_true.mpr (fun c hc => List.mem_takeWhile_imp hc)

lemma matchBareName_eq_some {l : List Char} {n : String}
    (h : matchBareName l = some n) :
    n ≠ "" ∧ n.data.all isNameChar = true := by
  unfold matchBareName at h
  dsimp only at h
  split_ifs at h with h1
  rw [Option.some.injEq] at h
  refine ⟨?_, ?_⟩
  · intro he
    rw [← h] at he
    have hnil : l.takeWhile isNameChar = [] := congrArg String.data he
    simp [hnil] at h1
  · rw [← h]
    exact List.all_eq_true.mpr (fun c hc => List.mem_takeWhile_imp hc)

/-- Claim C4 as amended: a line whose stripped form starts with a
character outside `[A-Za-z0-9_-]` (and is neither blank nor a comment)
emits nothing; a line whose operator+version pattern does not match but
whose start is a bare name token yields `(name, "")`; consequently `-e`
editable installs and URLs are *not* skipped — their leading token
(`-e`, `https`, …) is a bare name match and they yield `(token, "")`. -/
theorem claim_C4_amended :
    (∀ (line : String) (c : Char) (rest : List Char),
      pyStrip line.data = c :: rest → isNameChar c = false → c ≠ '#' →
      parseReqLine line = none) ∧
    (∀ (line : String) (c : Char) (rest : List Char),
      pyStrip line.data = c :: rest → isNameChar c = true →
      matchNameOpVer (c :: rest) = none →
      parseReqLine line =
        some (String.mk ((c :: rest).takeWhile isNameChar), "")) ∧
    parseReqLine "-e git+https://github.com/u/p.git" = some ("-e", "") ∧
    parseReqLine "https://example.com/pkg.whl" = some ("https", "") := by
  refine ⟨fun line c rest hs hname hhash => ?_,
          fun line c rest hs hname hnov => ?_, by decide, by decide⟩
  · simp only [parseReqLine, hs]
    rw [if_neg (by simp), if_neg (by simp [hhash])]
    have ht : (c :: rest).takeWhile isNameChar = [] := by
      simp [List.takeWhile_cons, hname]
    simp [matchNameOpVer, matchBareName, ht]
  · have hch : c ≠ '#' := by
      intro h
      subst h
      exact absurd hname (by decide)
    simp only [parseReqLine, hs]
    rw [if_neg (by simp), if_neg (by simp [hch]), hnov]
    simp [matchBareName, List.takeWhile_cons, hname]

/-- Witness for C4: the amended theorem applied to the concrete lines
`"./local"` (skipped) and `"pkg==abc"` (bare-name fallback). -/
theorem claim_C4_witness :
    parseReqLine "./local" = none ∧
    parseReqLine "pkg==abc" = some ("pkg", "") := by
  constructor
  · exact claim_C4_amended.1 "./local" '.' ['/', 'l', 'o', 'c', 'a', 'l']
      (by decide) (by decide) (by decide)
  · exact claim_C4_amended.2.1 "pkg==abc" 'p'
      ['k', 'g', '=', '=', 'a', 'b', 'c'] (by decide) (by decide) (by decide)

/-- Claim C10: every pair emitted by `_parse_requirements_txt` has a
non-empty name drawn from `[A-Za-z0-9_-]` and a version that is either
empty or non-empty and drawn from `[0-9.]`. -/
theorem claim_C10 :
    ∀ (file : Option (List String)) (p : String × String),
      p ∈ parseRequirementsTxt file →
      p.1 ≠ "" ∧ p.1.data.all isNameChar = true ∧
      (p.2 = "" ∨ (p.2 ≠ "" ∧ p.2.data.all isVerChar = true)) := by
  intro file p hp
  match file with
  | none => simp [parseRequirementsTxt] at hp
  | some lines =>
    simp only [parseRequirementsTxt] at hp
    obtain ⟨line, -, hline⟩ := List.mem_filterMap.mp hp
    unfold parseReqLine at hline
    dsimp only at hline
    split_ifs at hline with h1 h2
    cases hm : matchNameOpVer (pyStrip line.data) with
      | some nv =>
        rw [hm] at hline
        obtain ⟨n, v⟩ := nv
        rw [Option.some.injEq] at hline
        obtain ⟨hn, hnall, hv, hvall⟩ := matchNameOpVer_eq_some hm
        rw [← hline]
        exact ⟨hn, hnall, Or.inr ⟨hv, hvall⟩⟩
      | none =>
        rw [hm] at hline
        obtain ⟨n, hbn, hnp⟩ := Option.map_eq_some'.mp hline
        obtain ⟨hn, hnall⟩ := matchBareName_eq_some hbn
        rw [← hnp]
        exact ⟨hn, hnall, Or.inl rfl⟩

/-- Witness for C10: the invariant holds of a concrete parse. -/
theorem claim_C10_witness :
    ("foo" : String) ≠ "" ∧
    ("foo" : String).data.all isNameChar = true ∧
    (("1.2.3" : String) = "" ∨
      (("1.2.3" : String) ≠ "" ∧
        ("1.2.3" : String).data.all isVerChar = true)) :=
  claim_C10 (some ["foo>=1.2.3"]) ("foo", "1.2.3") (by decide)

/-! ### `_check_nvd_vulnerabilities` (lines 251-336)

The NVD response JSON is modelled field-for-field after the dictionary
accesses the code performs; `Option` marks keys whose absence the code
tolerates via `.get` defaults or `in` tests.  CVSS base scores appear in
the output only through f-string interpolation, so they are modelled as
the interpolated strings. -/

/-- `metrics[cvss_version][0].get('cvssData', {})` with its
`baseScore` / `baseSeverity` lookups (lines 312-314). -/
structure CvssData where
  baseScore : Option String
  baseSeverity : Option String
deriving DecidableEq

/-- One element of a `cvssMetricV31` / `cvssMetricV30` / `cvssMetricV2`
list; only element 0 and its `cvssData` key are read. -/
structure MetricEntry where
  cvssData : Option CvssData
deriving DecidableEq

/-- `cve['metrics']`: the three CVSS metric keys, each possibly absent
(`none`) or present with a list value (line 311 requires both `in` and
truthiness, i.e. presence and non-emptiness). -/
structure Metrics where
  cvssMetricV31 : Option (List MetricEntry)
  cvssMetricV30 : Option (List MetricEntry)
  cvssMetricV2 : Option (List MetricEntry)
deriving DecidableEq

/-- One element of `cve['descriptions']` (lines 300-303). -/
structure DescEntry where
  lang : Option String
  value : Option String
deriving DecidableEq

/-- `vuln_item.get('cve', {})` (lines 294-306): `id`, `descriptions`
(default `[]`) and `metrics` (default `{}`, i.e. `none`). -/
structure Cve where
  id : Option String
  descriptions : Option (List DescEntry)
  metrics : Option Metrics
deriving DecidableEq

/-- The empty dict default of `vuln_item.get('cve', {})`. -/
def emptyCve : Cve := ⟨none, none, none⟩

/-- One element of `data['vulnerabilities']` (line 293). -/
structure VulnItem where
  cve : Option Cve
deriving DecidableEq

/-- The 200-response body (line 292): `vulnerabilities` may be absent. -/
structure NvdResponse where
  vulnerabilities : Option (List VulnItem)
deriving DecidableEq

/-- Lines 300-303: scan `descriptions` for the first entry with
`lang == 'en'` and take its `value` (default
`'No description available'`); if no English entry exists the initial
default stands. -/
def extractDescription : List DescEntry → String
  | [] => "No description available"
  | d :: rest =>
    if d.lang = some "en" then d.value.getD "No description available"
    else extractDescription rest

/-- Lines 312-315: `base_score` and `severity` from
`metrics[cvss_version][0]`, with the `.get` defaults, formatted as
`" [CVSS: <score> - <severity>]"`. -/
def fmtCvss (e : MetricEntry) : String :=
  let score := match e.cvssData with
    | some d => d.baseScore.getD "N/A"
    | none => "N/A"
  let sev := match e.cvssData with
    | some d => d.baseSeverity.getD "UNKNOWN"
    | none => "UNKNOWN"
  " [CVSS: " ++ score ++ " - " ++ sev ++ "]"

/-- The `for cvss_version in [...]` loop of lines 310-316: the first key
that is present with a non-empty list wins (`break`); otherwise
`severity_info` stays `''`. -/
def severityLoop : List (Option (List MetricEntry)) → String
  | [] => ""
  | o :: rest =>
    match o with
    | some (e :: _) => fmtCvss e
    | _ => severityLoop rest

/-- `severity_info` for a `cve['metrics']` value: an absent `metrics` key
(default `{}`) has none of the three keys, so the loop finds nothing. -/
def severityInfo (m : Option Metrics) : String :=
  match m with
  | none => ""
  | some ms => severityLoop [ms.cvssMetricV31, ms.cvssMetricV30, ms.cvssMetricV2]

/-- `description[:200]` (line 319). -/
def take200 (s : String) : String := String.mk (s.data.take 200)

/-- Lines 319-321: the final description string
`f"{cve_id}: {description[:200]}{severity_info}"`, with
`" (Package version: {version})"` appended when `version` is truthy
(non-empty). -/
def mkVulnDescription (cve : Cve) (version : String) : String :=
  let cveId := cve.id.getD "Unknown CVE"
  let desc := extractDescription (cve.descriptions.getD [])
  let base := cveId ++ ": " ++ take200 desc ++ severityInfo cve.metrics
  if version.isEmpty then base else
    base ++ " (Package version: " ++ version ++ ")"

/-- Lines 292-327: findings extracted from a parsed 200-response body.
The code guards on `'vulnerabilities' in data and data['vulnerabilities']`
and then loops over every item. -/
def findingsOfResponse (package_type pkgName version : String)
    (data : NvdResponse) : List Finding :=
  match data.vulnerabilities with
  | none => []
  | some [] => []
  | some items =>
    items.map (fun it =>
      ⟨package_type, pkgName, mkVulnDescription (it.cve.getD emptyCve) version⟩)

/-- Line 270-273: the NVD search keyword for a package. -/
def searchKeyword (package_type pkgName : String) : String :=
  if package_type = "npm" then "npm " ++ pkgName else "python " ++ pkgName

/-- What the HTTP world does for one keyword query: `requests.get` raises
(`netError`), or completes with a status code and a body that either
parses as JSON (`some body`, used only when the status is 200) or makes
`response.json()` raise (`none`). -/
inductive QueryOutcome where
  | netError
  | response (code : Nat) (body : Option NvdResponse)

/-- Observable events of the per-package loop: the HTTP GET issued with
a keyword, and `time.sleep(self.request_delay)` with the fixed delay
`request_delay = 0.6`. -/
inductive Event where
  | query (keyword : String)
  | sleep
deriving DecidableEq

/-- Whether this package's `try` body raises (and is caught by the
`except ... continue` of lines 332-334): a network error, or a 200
response whose body is not valid JSON.  A non-200 response raises
nothing — the `if` at line 288 is simply skipped. -/
def queryRaises (env : String → QueryOutcome) (keyword : String) : Bool :=
  match env keyword with
  | .netError => true
  | .response code none => code == 200
  | .response _ (some _) => false

/-- One iteration of the `for pkg_name, version in packages` loop
(lines 267-334), returning the findings appended and the events emitted:
the query always happens; on an exception `continue` skips the rest of
the body, including the `time.sleep` at line 330; otherwise results (for
a 200 with valid JSON) are appended and the sleep runs. -/
def checkNvdStep (package_type : String) (env : String → QueryOutcome)
    (p : String × String) : List Finding × List Event :=
  let kw := searchKeyword package_type p.1
  match env kw with
  | .netError => ([], [.query kw])
  | .response code body =>
    if code = 200 then
      match body with
      | none => ([], [.query kw])
      | some data =>
        (findingsOfResponse package_type p.1 p.2 data, [.query kw, .sleep])
    else ([], [.query kw, .sleep])

/-- `_check_nvd_vulnerabilities`: the whole loop, accumulating the
`vulnerabilities` list and the event trace in package order. -/
def checkNvdVulnerabilities (package_type : String)
    (env : String → QueryOutcome) (packages : List (String × String)) :
    List Finding × List Event :=
  packages.foldl (fun acc p =>
    let s := checkNvdStep package_type env p
    (acc.1 ++ s.1, acc.2 ++ s.2)) ([], [])

lemma checkNvd_foldl_eq (package_type : String) (env : String → QueryOutcome)
    (packages : List (String × String)) :
    ∀ acc : List Finding × List Event,
      packages.foldl (fun acc p =>
        let s := checkNvdStep package_type env p
        (acc.1 ++ s.1, acc.2 ++ s.2)) acc =
      (acc.1 ++ packages.flatMap (fun p => (checkNvdStep package_type env p).1),
       acc.2 ++ packages.flatMap (fun p => (checkNvdStep package_type env p).2)) := by
  induction packages with
  | nil => intro acc; simp
  | cons p rest ih =>
    intro acc
    simp only [List.foldl_cons, ih, List.flatMap_cons, List.append_assoc]

lemma checkNvd_eq_flatMap (package_type : String) (env : String → QueryOutcome)
    (packages : List (String × String)) :
    checkNvdVulnerabilities package_type env packages =
      (packages.flatMap (fun p => (checkNvdStep package_type env p).1),
       packages.flatMap (fun p => (checkNvdStep package_type env p).2)) := by
  simpa [checkNvdVulnerabilities] using
    checkNvd_foldl_eq package_type env packages ([], [])

/-- Concrete environment for C6's spec scenario: packages `a` and `c`
answer 200 with one CVE each, package `b` suffers a network error. -/
def envC6 : String → QueryOutcome := fun kw =>
  if kw = "python a" then
    .response 200 (some ⟨some [⟨some ⟨some "CVE-A",
      some [⟨some "en", some "da"⟩], none⟩⟩]⟩)
  else if kw = "python b" then .netError
  else
    .response 200 (some ⟨some [⟨some ⟨some "CVE-C",
      some [⟨some "en", some "dc"⟩], none⟩⟩]⟩)

/-- Claim C6: a failure while querying one package skips only that
package: the result is the concatenation of each package's own
contribution (each depending only on that package's outcome, no early
termination), and in the spec's 3-package scenario with package 2
failing, packages 1 and 3 still contribute their findings. -/
theorem claim_C6 :
    (∀ (package_type : String) (env : String → QueryOutcome)
        (packages : List (String × String)),
      (checkNvdVulnerabilities package_type env packages).1 =
        packages.flatMap (fun p => (checkNvdStep package_type env p).1)) ∧
    (checkNvdVulnerabilities "pip" envC6 [("a", ""), ("b", ""), ("c", "")]).1 =
      [⟨"pip", "a", "CVE-A: da"⟩, ⟨"pip", "c", "CVE-C: dc"⟩] := by
  constructor
  · intro package_type env packages
    rw [checkNvd_eq_flatMap]
  · decide

/-- The C2 claim's shape on the event trace: between any two consecutive
HTTP queries a sleep occurs (no query is immediately followed by another
query). -/
def sleepBetweenQueries : List Event → Bool
  | .query _ :: .query _ :: _ => false
  | _ :: rest => sleepBetweenQueries rest
  | [] => true

/-- Concrete environment for the C2 counterexample: package `a`'s query
raises a network error, package `b`'s succeeds. -/
def envC2 : String → QueryOutcome := fun kw =>
  if kw = "python a" then .netError else .response 200 (some ⟨none⟩)

/-- Claim C2, counterexample: when package `a`'s query fails with a
network error, `continue` skips the `time.sleep` (line 330 sits inside
the `try`), so the next package's query is issued with *no* sleep in
between: the trace is `[query a, query b, sleep]`, refuting "a fixed
0.6-second sleep occurs before the next package's query" for failed
queries. -/
theorem claim_C2_counterexample :
    (checkNvdVulnerabilities "pip" envC2 [("a", ""), ("b", "")]).2 =
      [.query "python a", .query "python b", .sleep] ∧
    sleepBetweenQueries
      (checkNvdVulnerabilities "pip" envC2 [("a", ""), ("b", "")]).2 =
      false := by
  constructor
  · decide
  · decide

lemma checkNvdStep_trace (package_type : String)
    (env : String → QueryOutcome) (p : String × String) :
    (checkNvdStep package_type env p).2 =
      Event.query (searchKeyword package_type p.1) ::
        (if queryRaises env (searchKeyword package_type p.1) = true then []
         else [Event.sleep]) := by
  unfold checkNvdStep queryRaises
  cases henv : env (searchKeyword package_type p.1) with
  | netError => simp [henv]
  | response code body =>
    cases body with
    | none =>
      by_cases hc : code = 200
      · simp [henv, hc]
      · simp [henv, hc]
    | some data =>
      by_cases hc : code = 200
      · simp [henv, hc]
      · simp [henv, hc]

lemma sleepBetweenQueries_blocks (packages : List (String × String))
    (f : String × String → String) :
    sleepBetweenQueries (packages.flatMap
      (fun p => [Event.query (f p), Event.sleep])) = true := by
  induction packages with
  | nil => rfl
  | cons p rest ih =>
    simpa [sleepBetweenQueries] using ih

/-- Claim C2 as amended: the event trace of the NVD loop issues one query
per package and sleeps the fixed 0.6-second delay after each query that
completes without raising (success or non-200 status); a query that
raises a network or JSON error proceeds directly to the next package's
query with no sleep.  When no query raises, every two consecutive queries
are separated by a sleep. -/
theorem claim_C2_amended :
    (∀ (package_type : String) (env : String → QueryOutcome)
        (packages : List (String × String)),
      (checkNvdVulnerabilities package_type env packages).2 =
        packages.flatMap (fun p =>
          Event.query (searchKeyword package_type p.1) ::
            (if queryRaises env (searchKeyword package_type p.1) = true then []
             else [Event.sleep]))) ∧
    (∀ (package_type : String) (env : String → QueryOutcome)
        (packages : List (String × String)),
      (∀ p ∈ packages,
        queryRaises env (searchKeyword package_type p.1) = false) →
      sleepBetweenQueries
        (checkNvdVulnerabilities package_type env packages).2 = true) := by
  have htrace : ∀ (package_type : String) (env : String → QueryOutcome)
      (packages : List (String × String)),
      (checkNvdVulnerabilities package_type env packages).2 =
        packages.flatMap (fun p =>
          Event.query (searchKeyword package_type p.1) ::
            (if queryRaises env (searchKeyword package_type p.1) = true then []
             else [Event.sleep])) := by
    intro package_type env packages
    rw [checkNvd_eq_flatMap]
    show packages.flatMap (fun p => (checkNvdStep package_type env p).2) = _
    exact congrArg (fun f => packages.flatMap f)
      (funext (fun p => checkNvdStep_trace package_type env p))
  refine ⟨htrace, fun package_type env packages hall => ?_⟩
  rw [htrace]
  have hbl : packages.flatMap (fun p =>
      Event.query (searchKeyword package_type p.1) ::
        (if queryRaises env (searchKeyword package_type p.1) = true then []
         else [Event.sleep])) =
      packages.flatMap (fun p =>
        [Event.query (searchKeyword package_type p.1), Event.sleep]) := by
    apply List.flatMap_congr
    intro p hp
    rw [hall p hp]
    simp
  rw [hbl]
  exact sleepBetweenQueries_blocks packages _

/-- Witness for C2: the amended theorem at a concrete one-package,
non-raising environment. -/
theorem claim_C2_witness :
    sleepBetweenQueries
      (checkNvdVulnerabilities "pip"
        (fun _ => .response 404 none) [("a", "")]).2 = true :=
  claim_C2_amended.2 "pip" (fun _ => .response 404 none) [("a", "")]
    (fun p hp => by
      cases hp with
      | head => rfl
      | tail _ h => cases h)

/-- "Populated" in the sense of line 311: the metric key is present and
its list value is truthy (non-empty). -/
def metricPopulated : Option (List MetricEntry) → Bool
  | some (_ :: _) => true
  | _ => false

lemma fmtCvss_ne_empty (e : MetricEntry) : fmtCvss e ≠ "" := by
  unfold fmtCvss
  intro h
  have hd := congrArg String.data h
  simp [String.data_append] at hd

lemma severityLoop_of_populated (o : Option (List MetricEntry))
    (rest : List (Option (List MetricEntry))) (e : MetricEntry)
    (l : List MetricEntry) (h : o = some (e :: l)) :
    severityLoop (o :: rest) = fmtCvss e := by
  subst h; rfl

lemma severityLoop_of_unpopulated (o : Option (List MetricEntry))
    (rest : List (Option (List MetricEntry)))
    (h : metricPopulated o = false) :
    severityLoop (o :: rest) = severityLoop rest := by
  match o with
  | none => rfl
  | some [] => rfl
  | some (e :: l) => simp [metricPopulated] at h

lemma severityInfo_some (ms : Metrics) :
    severityInfo (some ms) =
      severityLoop [ms.cvssMetricV31, ms.cvssMetricV30, ms.cvssMetricV2] :=
  rfl

/-- Claim C7: each record's description is
`"<id>: <description truncated to 200 chars><severity suffix>"` with
`" (Package version: <version>)"` appended iff the version is non-empty;
the severity suffix comes from the first populated metric block in the
order `cvssMetricV31`, `cvssMetricV30`, `cvssMetricV2` and is empty iff
none of the three is populated — in particular a record with only a
`cvssMetricV2` block yields the v2 score and severity. -/
theorem claim_C7 :
    (∀ (cve : Cve) (version : String),
      (version = "" → mkVulnDescription cve version =
        (cve.id.getD "Unknown CVE") ++ ": " ++
          take200 (extractDescription (cve.descriptions.getD [])) ++
          severityInfo cve.metrics) ∧
      (version ≠ "" → mkVulnDescription cve version =
        (cve.id.getD "Unknown CVE") ++ ": " ++
          take200 (extractDescription (cve.descriptions.getD [])) ++
          severityInfo cve.metrics ++ " (Package version: " ++ version ++ ")")) ∧
    (∀ ms : Metrics, severityInfo (some ms) = "" ↔
      (metricPopulated ms.cvssMetricV31 = false ∧
       metricPopulated ms.cvssMetricV30 = false ∧
       metricPopulated ms.cvssMetricV2 = false)) ∧
    (∀ (ms : Metrics) (e : MetricEntry) (l : List MetricEntry),
      (ms.cvssMetricV31 = some (e :: l) →
        severityInfo (some ms) = fmtCvss e) ∧
      (metricPopulated ms.cvssMetricV31 = false →
        ms.cvssMetricV30 = some (e :: l) →
        severityInfo (some ms) = fmtCvss e) ∧
      (metricPopulated ms.cvssMetricV31 = false →
        metricPopulated ms.cvssMetricV30 = false →
        ms.cvssMetricV2 = some (e :: l) →
        severityInfo (some ms) = fmtCvss e)) := by
  refine ⟨fun cve version => ⟨fun hv => ?_, fun hv => ?_⟩,
          fun ms => ?_, fun ms e l => ⟨fun h31 => ?_, fun h31 h30 => ?_,
          fun h31 h30 h2 => ?_⟩⟩
  · subst hv
    rfl
  · have hne : version.isEmpty = false := by
      cases he : version.isEmpty
      · rfl
      · exact absurd ((String.isEmpty_iff version).mp he) hv
    simp [mkVulnDescription, hne]
  · rw [severityInfo_some]
    constructor
    · intro h
      rcases hp31 : ms.cvssMetricV31 with _ | l31
      · rcases hp30 : ms.cvssMetricV30 with _ | l30
        · rcases hp2 : ms.cvssMetricV2 with _ | l2
          · simp [metricPopulated]
          · cases l2 with
            | nil => simp [metricPopulated]
            | cons e2 t2 =>
              rw [hp31, hp30, hp2] at h
              exact absurd h (by simpa [severityLoop] using fmtCvss_ne_empty e2)
        · cases l30 with
          | nil =>
            rcases hp2 : ms.cvssMetricV2 with _ | l2
            · simp [metricPopulated]
            · cases l2 with
              | nil => simp [metricPopulated]
              | cons e2 t2 =>
                rw [hp31, hp30, hp2] at h
                exact absurd h
                  (by simpa [severityLoop] using fmtCvss_ne_empty e2)
          | cons e30 t30 =>
            rw [hp31, hp30] at h
            exact absurd h (by simpa [severityLoop] using fmtCvss_ne_empty e30)
      · cases l31 with
        | nil =>
          rcases hp30 : ms.cvssMetricV30 with _ | l30
          · rcases hp2 : ms.cvssMetricV2 with _ | l2
            · simp [metricPopulated]
            · cases l2 with
              | nil => simp [metricPopulated]
              | cons e2 t2 =>
                rw [hp31, hp30, hp2] at h
                exact absurd h
                  (by simpa [severityLoop] using fmtCvss_ne_empty e2)
          · cases l30 with
            | nil =>
              rcases hp2 : ms.cvssMetricV2 with _ | l2
              · simp [metricPopulated]
              · cases l2 with
                | nil => simp [metricPopulated]
                | cons e2 t2 =>
                  rw [hp31, hp30, hp2] at h
                  exact absurd h
                    (by simpa [severityLoop] using fmtCvss_ne_empty e2)
            | cons e30 t30 =>
              rw [hp31, hp30] at h
              exact absurd h
                (by simpa [severityLoop] using fmtCvss_ne_empty e30)
        | cons e31 t31 =>
          rw [hp31] at h
          exact absurd h (by simpa [severityLoop] using fmtCvss_ne_empty e31)
    · rintro ⟨h31, h30, h2⟩
      rw [severityLoop_of_unpopulated _ _ h31,
          severityLoop_of_unpopulated _ _ h30,
          severityLoop_of_unpopulated _ _ h2]
      rfl
  · rw [severityInfo_some]
    exact severityLoop_of_populated _ _ _ _ h31
  · rw [severityInfo_some]
    rw [severityLoop_of_unpopulated _ _ h31]
    exact severityLoop_of_populated _ _ _ _ h30
  · rw [severityInfo_some]
    rw [severityLoop_of_unpopulated _ _ h31,
        severityLoop_of_unpopulated _ _ h30]
    exact severityLoop_of_populated _ _ _ _ h2

/-- Witness for C7: a record with only a `cvssMetricV2` block (score 5.0,
severity MEDIUM) and a non-empty package version, fully evaluated. -/
theorem claim_C7_witness :
    mkVulnDescription
        ⟨some "CVE-2001-1", some [⟨some "en", some "old bug"⟩],
          some ⟨none, none, some [⟨some ⟨some "5.0", some "MEDIUM"⟩⟩]⟩⟩
        "1.0" =
      "CVE-2001-1: old bug [CVSS: 5.0 - MEDIUM] (Package version: 1.0)" ∧
    severityInfo (some ⟨none, none,
        some [⟨some ⟨some "5.0", some "MEDIUM"⟩⟩]⟩) =
      fmtCvss ⟨some ⟨some "5.0", some "MEDIUM"⟩⟩ := by
  constructor
  · have h := (claim_C7.1
      ⟨some "CVE-2001-1", some [⟨some "en", some "old bug"⟩],
        some ⟨none, none, some [⟨some ⟨some "5.0", some "MEDIUM"⟩⟩]⟩⟩
      "1.0").2 (by decide)
    rw [h]
    decide
  · exact (claim_C7.2.2 ⟨none, none,
        some [⟨some ⟨some "5.0", some "MEDIUM"⟩⟩]⟩
      ⟨some ⟨some "5.0", some "MEDIUM"⟩⟩ []).2.2 rfl rfl rfl

/-! ### `_check_npm_vulnerabilities` (lines 72-131) and
`_check_python_vulnerabilities` (lines 133-195)

A `subprocess.run(..., capture_output=True, text=True, timeout=30)` call
is modelled by `ToolOut α`: the spawn can raise `TimeoutExpired` or
`FileNotFoundError`, or complete with an exit code and a stdout that is
empty (`none`), non-empty but not JSON (`some none`), or parses to a
document of type `α` (`some (some d)`).  `subprocess.run` without
`check=True` never raises `CalledProcessError`, so the exit code is
data the code could inspect — and never does. -/

inductive ToolOut (α : Type) where
  | timeout
  | notFound
  | done (exitCode : Int) (stdout : Option (Option α))

/-- One element of a v7 `via` list (lines 97-109): entries that are not
dicts are skipped by the `isinstance(v, dict)` test. -/
inductive ViaItem where
  | str (s : String)
  | viaDict (title cve url : Option String)
deriving DecidableEq

/-- One value of the v7 `vulnerabilities` dict (line 90-91): values that
are not dicts are skipped by `isinstance(vuln_data, dict)`.  The
`severity` key is read at line 92 but never used. -/
inductive NpmVulnEntry where
  | notDict
  | entry (severity : Option String) (via : List ViaItem)
deriving DecidableEq

/-- One value of the v6 `advisories` dict (lines 120-125). -/
structure Advisory where
  module_name : Option String
  title : Option String
  severity : Option String
deriving DecidableEq

/-- The `npm audit --json` document: dicts are association lists in
iteration order; `none` means the top-level key is absent (the code only
tests `'vulnerabilities' in data` / `'advisories' in data`). -/
structure NpmData where
  vulnerabilities : Option (List (String × NpmVulnEntry))
  advisories : Option (List (String × Advisory))
deriving DecidableEq

/-- Lines 99-109: description of one dict `via` entry: start from
`title` (default `''`); prefix `"{cve}: "` when `cve` is truthy;
append `" - {url}"` when `url` is truthy. -/
def viaDesc : ViaItem → Option String
  | .str _ => none
  | .viaDict title cve url =>
    let d1 := title.getD ""
    let d2 := if (cve.getD "") = "" then d1 else (cve.getD "") ++ ": " ++ d1
    let d3 := if (url.getD "") = "" then d2 else d2 ++ " - " ++ (url.getD "")
    some d3

/-- Lines 90-116 (npm v7+ format): one finding per package whose `via`
list produced at least one description part, joined with `' | '`. -/
def npmV7Findings (entries : List (String × NpmVulnEntry)) : List Finding :=
  entries.filterMap (fun pe =>
    match pe.2 with
    | .notDict => none
    | .entry _ via =>
      let parts := via.filterMap viaDesc
      if parts.isEmpty then none
      else some ⟨"npm", pe.1, String.intercalate " | " parts⟩)

/-- Lines 118-125 (npm v6 format): one finding per advisory. -/
def npmV6Findings (advisories : List (String × Advisory)) : List Finding :=
  advisories.map (fun pa =>
    ⟨"npm", pa.2.module_name.getD "unknown",
      (pa.2.title.getD "No title") ++ " - Severity: " ++
        (pa.2.severity.getD "unknown")⟩)

/-- Lines 87-127: dispatch on which top-level key is present
(`if 'vulnerabilities' in data ... elif 'advisories' in data`). -/
def parseNpmAudit (d : NpmData) : List Finding :=
  match d.vulnerabilities with
  | some entries => npmV7Findings entries
  | none =>
    match d.advisories with
    | some advs => npmV6Findings advs
    | none => []

/-- `_check_npm_vulnerabilities`: the `except` clause catches timeout,
tool-not-found and JSON decode errors, returning `[]`; an empty stdout
skips the `if result.stdout:` body and reaches the final `return []`.
The exit code of a completed run is never inspected. -/
def runNpmCheck (r : ToolOut NpmData) : List Finding :=
  match r with
  | .timeout => []
  | .notFound => []
  | .done _ none => []
  | .done _ (some none) => []
  | .done _ (some (some d)) => parseNpmAudit d

/-- One `vulns` entry of a pip-audit dependency (lines 154-161). -/
structure PipVuln where
  id : Option String
  description : Option String
deriving DecidableEq

/-- One element of pip-audit's `dependencies` list (lines 150-152). -/
structure PipDep where
  name : Option String
  vulns : Option (List PipVuln)
deriving DecidableEq

/-- The pip-audit JSON document; `dependencies` may be absent
(`if 'dependencies' in data:`, line 149). -/
structure PipAuditData where
  dependencies : Option (List PipDep)
deriving DecidableEq

/-- Lines 149-162: findings from a parsed pip-audit document.  When the
`dependencies` key is absent the loop body is skipped and the (empty)
accumulated list is returned — the fallback tool is *not* tried, because
`return vulnerabilities` at line 164 sits inside `if result.stdout:`. -/
def pipAuditFindings (d : PipAuditData) : List Finding :=
  match d.dependencies with
  | none => []
  | some deps =>
    deps.flatMap (fun dep =>
      (dep.vulns.getD []).map (fun v =>
        ⟨"pip", dep.name.getD "unknown",
          (v.id.getD "Unknown CVE") ++ ": " ++
            (v.description.getD "No description available")⟩))

/-- One element of the safety JSON document (lines 180-189): the code
keeps only list elements of length ≥ 4, using element 0 as the package
name and element 3 as the description. -/
inductive SafetyItem where
  | arr (l : List String)
  | nonArr
deriving DecidableEq

/-- Lines 180-189: findings from a parsed safety document. -/
def safetyFindings (d : List SafetyItem) : List Finding :=
  d.filterMap (fun it =>
    match it with
    | .nonArr => none
    | .arr (a :: _ :: _ :: dsc :: _) => some ⟨"pip", a, dsc⟩
    | .arr _ => none)

/-- Whether the pip-audit attempt falls through to the safety fallback:
an exception in the `try` block (timeout, not-found, JSON decode error)
reaches `pass`, and an empty stdout skips the `if result.stdout:` body;
in both cases control continues to the safety block.  A completed run
with non-empty JSON stdout returns from inside the `if`, whatever the
exit code and whether or not `dependencies` is present. -/
def pipFails : ToolOut PipAuditData → Bool
  | .timeout => true
  | .notFound => true
  | .done _ none => true
  | .done _ (some none) => true
  | .done _ (some (some _)) => false

/-- The same fall-through condition for the safety block: when it also
fails the function reaches the final `return []` (line 195). -/
def safetyFails : ToolOut (List SafetyItem) → Bool
  | .timeout => true
  | .notFound => true
  | .done _ none => true
  | .done _ (some none) => true
  | .done _ (some (some _)) => false

/-- `_check_python_vulnerabilities`: try pip-audit; on fall-through try
safety; on fall-through return `[]`. -/
def runPythonCheck (rp : ToolOut PipAuditData)
    (rs : ToolOut (List SafetyItem)) : List Finding :=
  match rp with
  | .done _ (some (some d)) => pipAuditFindings d
  | _ =>
    match rs with
    | .done _ (some (some d)) => safetyFindings d
    | _ => []

/-- Claim C8: the safety fallback is consulted exactly when pip-audit is
unavailable or fails (timeout, not found, empty output, JSON decode
error): when pip-audit succeeds the safety outcome is irrelevant; when it
fails the result is determined by the safety outcome alone, a succeeding
safety run contributing its findings; and when both tools fail the
provider returns `[]` without raising — there is no further level. -/
theorem claim_C8 :
    (∀ (rp : ToolOut PipAuditData) (rs rs2 : ToolOut (List SafetyItem)),
      pipFails rp = false →
      runPythonCheck rp rs = runPythonCheck rp rs2) ∧
    (∀ (rp rp2 : ToolOut PipAuditData) (rs : ToolOut (List SafetyItem)),
      pipFails rp = true → pipFails rp2 = true →
      runPythonCheck rp rs = runPythonCheck rp2 rs) ∧
    (∀ (rp : ToolOut PipAuditData) (rs : ToolOut (List SafetyItem)),
      pipFails rp = true → safetyFails rs = true →
      runPythonCheck rp rs = []) ∧
    (∀ (rp : ToolOut PipAuditData) (ec : Int) (d : List SafetyItem),
      pipFails rp = true →
      runPythonCheck rp (.done ec (some (some d))) = safetyFindings d) := by
  have hfail : ∀ (rp : ToolOut PipAuditData) (rs : ToolOut (List SafetyItem)),
      pipFails rp = true →
      runPythonCheck rp rs =
        (match rs with
          | .done _ (some (some d)) => safetyFindings d
          | _ => []) := by
    intro rp rs h
    match rp with
    | .timeout => rfl
    | .notFound => rfl
    | .done ec none => rfl
    | .done ec (some none) => rfl
    | .done ec (some (some d)) => simp [pipFails] at h
  refine ⟨fun rp rs rs2 h => ?_, fun rp rp2 rs h h2 => ?_,
          fun rp rs h hs => ?_, fun rp ec d h => ?_⟩
  · match rp with
    | .done ec (some (some d)) => rfl
    | .timeout => simp [pipFails] at h
    | .notFound => simp [pipFails] at h
    | .done ec none => simp [pipFails] at h
    | .done ec (some none) => simp [pipFails] at h
  · rw [hfail rp rs h, hfail rp2 rs h2]
  · rw [hfail rp rs h]
    match rs with
    | .timeout => rfl
    | .notFound => rfl
    | .done ec none => rfl
    | .done ec (some none) => rfl
    | .done ec (some (some d)) => simp [safetyFails] at hs
  · rw [hfail rp _ h]

/-- Witness for C8: pip-audit times out and a completed safety run (even
with exit code 1) supplies the findings; when both tools fail the result
is empty. -/
theorem claim_C8_witness :
    runPythonCheck .timeout
        (.done 1 (some (some
          [.arr ["insecure-pkg", "<0.5", "ID", "bad crypto"]]))) =
      safetyFindings [.arr ["insecure-pkg", "<0.5", "ID", "bad crypto"]] ∧
    runPythonCheck .timeout .notFound = [] :=
  ⟨claim_C8.2.2.2 .timeout 1 _ rfl, claim_C8.2.2.1 .timeout .notFound rfl rfl⟩

/-- Claim C9: neither local audit provider inspects the subprocess exit
status: for completed runs the result depends only on stdout, so a
non-zero exit with valid JSON of a recognized shape parses exactly as on
success; the only failures are timeout, tool-not-found, empty output and
JSON decode errors, each yielding `[]`. -/
theorem claim_C9 :
    (∀ (ec ec2 : Int) (out : Option (Option NpmData)),
      runNpmCheck (.done ec out) = runNpmCheck (.done ec2 out)) ∧
    (∀ (ec : Int) (d : NpmData),
      runNpmCheck (.done ec (some (some d))) = parseNpmAudit d) ∧
    (∀ (ec ec2 : Int) (outp : Option (Option PipAuditData))
        (rs : ToolOut (List SafetyItem)),
      runPythonCheck (.done ec outp) rs = runPythonCheck (.done ec2 outp) rs) ∧
    (∀ (ec ec2 : Int) (outs : Option (Option (List SafetyItem)))
        (rp : ToolOut PipAuditData),
      runPythonCheck rp (.done ec outs) = runPythonCheck rp (.done ec2 outs)) ∧
    (∀ (ec : Int) (d : PipAuditData) (rs : ToolOut (List SafetyItem)),
      runPythonCheck (.done ec (some (some d))) rs = pipAuditFindings d) ∧
    (runNpmCheck .timeout = [] ∧ runNpmCheck .notFound = []) ∧
    (∀ ec : Int, runNpmCheck (.done ec none) = [] ∧
      runNpmCheck (.done ec (some none)) = []) := by
  refine ⟨fun ec ec2 out => ?_, fun ec d => rfl, fun ec ec2 outp rs => ?_,
          fun ec ec2 outs rp => ?_, fun ec d rs => rfl, ⟨rfl, rfl⟩,
          fun ec => ⟨rfl, rfl⟩⟩
  · match out with
    | none => rfl
    | some none => rfl
    | some (some d) => rfl
  · match outp with
    | none => rfl
    | some none => rfl
    | some (some d) => rfl
  · match outs, rp with
    | none, .timeout => rfl
    | none, .notFound => rfl
    | none, .done e none => rfl
    | none, .done e (some none) => rfl
    | none, .done e (some (some d)) => rfl
    | some none, .timeout => rfl
    | some none, .notFound => rfl
    | some none, .done e none => rfl
    | some none, .done e (some none) => rfl
    | some none, .done e (some (some d)) => rfl
    | some (some s), .timeout => rfl
    | some (some s), .notFound => rfl
    | some (some s), .done e none => rfl
    | some (some s), .done e (some none) => rfl
    | some (some s), .done e (some (some d)) => rfl

end DepChecker
